import Mathlib

/-!
Verification development for depsy's analyze.py.

The script is embedded shallowly: every Python function becomes a Lean
definition over an abstract environment (Env) describing the external
world (reachability of the Memgraph endpoint, availability and exit
statuses of external tools, the directory structure, and the graphs the
pydot reader yields for each DOT file).  Side effects are recorded as an
explicit trace of events (List Event); Python exceptions are modelled
with Except PyError.
-/

/-- Python exceptions that can escape the modelled functions. -/
inductive PyError where
  | keyError
  | attributeError
  | calledProcessError
  | connectionError
  deriving DecidableEq, Repr

/-- Values stored in a networkx node-attribute dictionary: read_dot yields
string attributes, and dot_to_mg_graph additionally stores the list of
category labels under the key "labels". -/
inductive AttrVal where
  | str : String → AttrVal
  | list : List String → AttrVal
  deriving DecidableEq, Repr

/-- A node attribute dictionary, in insertion order, without duplicate keys
(Python dict). -/
abbrev Attrs := List (String × AttrVal)

/-- Dictionary lookup: first binding of the key, if any. -/
def getAttr : Attrs → String → Option AttrVal
  | [], _ => none
  | (k', v) :: rest, k => if k' = k then some v else getAttr rest k

/-- Dictionary update d[k] = v: replace the first binding of k in place,
or append a new binding at the end (Python dict semantics). -/
def setAttr : Attrs → String → AttrVal → Attrs
  | [], k, v => [(k, v)]
  | (k', v') :: rest, k, v =>
    if k' = k then (k, v) :: rest else (k', v') :: setAttr rest k v

/-- A node of the graph returned by networkx.drawing.nx_pydot.read_dot. -/
structure DotNode where
  id : String
  data : Attrs
  deriving DecidableEq, Repr

/-- The (multi)graph returned by read_dot: nodes with attribute
dictionaries, and edges as endpoint pairs (edge attributes play no role
in the script). -/
structure DotGraph where
  nodes : List DotNode
  edges : List (String × String)
  deriving DecidableEq, Repr

/-- An entry of os.scandir: a name and whether it is a directory. -/
structure DirEntry where
  name : String
  isDir : Bool
  deriving DecidableEq, Repr

/-- The external world the script runs against.
mgReady tells whether connecting to a given host and port and issuing a
query succeeds.  cmakeInvocable / cargoInvocable tell whether the binary
can be spawned at all (subprocess raising FileNotFoundError otherwise);
the Exit fields are the exit statuses of the probe commands.  The source
never consults cmakeVersionExit: subprocess.run is called without
check=True there, so a non-zero exit is simply ignored.
readDot gives the graph that read_dot parses from a given DOT path,
nxToCypher the statement list gqlalchemy's nx_to_cypher produces for a
graph, scandir the entries of a directory, and isFile whether a path is
an existing regular file. -/
structure Env where
  mgReady : String → Nat → Bool
  cmakeInvocable : Bool
  cmakeVersionExit : Nat
  cargoInvocable : Bool
  cargoVersionExit : Nat
  cargoListExit : Nat
  cargoListStdout : String
  readDot : String → DotGraph
  nxToCypher : DotGraph → List String
  scandir : String → List DirEntry
  isFile : String → Bool

/-- Does the char list p occur at the start of s? -/
def startsWithChars : List Char → List Char → Bool
  | [], _ => true
  | _ :: _, [] => false
  | a :: as, b :: bs => if a = b then startsWithChars as bs else false

/-- Does the char list p occur contiguously anywhere in s? -/
def hasSubChars : List Char → List Char → Bool
  | p, [] => startsWithChars p []
  | p, s@(_ :: rest) => startsWithChars p s || hasSubChars p rest

/-- Python s.startswith(p), at character level. -/
def strStartsWith (s p : String) : Bool := startsWithChars p.data s.data

/-- Python p in s (substring containment), at character level. -/
def containsSubstr (s p : String) : Bool := hasSubChars p.data s.data

/-- Python s.endswith(p), at character level. -/
def strEndsWith (s p : String) : Bool :=
  startsWithChars p.data.reverse s.data.reverse

/-- Python s.strip(cs): remove leading and trailing characters drawn
from cs. -/
def pyStrip (cs : List Char) (s : String) : String :=
  ⟨((s.data.dropWhile (fun c => cs.contains c)).reverse.dropWhile
      (fun c => cs.contains c)).reverse⟩

/-- The character set of the Python literal passed to strip in
dot_to_mg_graph: a single-quote character (code 39) and a double-quote
character (code 34). -/
def pyQuoteChars : List Char := [Char.ofNat 39, Char.ofNat 34]

/-- Observable actions of the script: probing the Memgraph endpoint
(is_memgraph_ready's connection attempt together with its trial query),
executing a statement against Memgraph, calling the graph loader
dot_to_memgraph on a DOT path with a list of category labels, changing
the working directory, spawning an external command, opening a file for
writing, running a shell command line, logging a warning, printing a
message. -/
inductive Event where
  | mgProbe (host : String) (port : Nat)
  | mgExecute (host : String) (port : Nat) (query : String)
  | load (path : String) (labels : List String)
  | chdir (dir : String)
  | runCmd (args : List String)
  | writeFile (path : String)
  | shellRun (cmd : String)
  | logWarning (msg : String)
  | printMsg (msg : String)
  deriving DecidableEq, Repr

/-- WORK_DIRECTORY = os.path.dirname(os.path.realpath(the script)); its
concrete value is irrelevant, a fixed abstract path is used. -/
def WORK_DIRECTORY : String := "/depsy"

def MG_HOST : String := "127.0.0.1"

def MG_PORT : Nat := 7687

/-- os.path.join for a relative second component. -/
def pathJoin (a b : String) : String := a ++ "/" ++ b

/-- is_memgraph_ready(host, port): connect and issue a trial query inside
try/except; any failure yields False, success yields True.  It never
raises. -/
def is_memgraph_ready (env : Env) (host : String := "127.0.0.1")
    (port : Nat := 7687) : List Event × Except PyError Bool :=
  ([.mgProbe host port], .ok (env.mgReady host port))

/-- The per-node loop body of dot_to_mg_graph:
data["labels"] = labels; data["name"] = data["label"].strip(quotes).
A node without a "label" attribute makes the subscript raise KeyError;
a non-string "label" value would make .strip raise AttributeError. -/
def annotateNode (labels : List String) (n : DotNode) :
    Except PyError DotNode :=
  match getAttr (setAttr n.data "labels" (.list labels)) "label" with
  | some (.str s) =>
    .ok ⟨n.id, setAttr (setAttr n.data "labels" (.list labels)) "name"
      (.str (pyStrip pyQuoteChars s))⟩
  | some (.list _) => .error .attributeError
  | none => .error .keyError

/-- The node loop of dot_to_mg_graph over the node list. -/
def annotateNodes (labels : List String) :
    List DotNode → Except PyError (List DotNode)
  | [] => .ok []
  | n :: rest =>
    match annotateNode labels n with
    | .ok n' =>
      match annotateNodes labels rest with
      | .ok rest' => .ok (n' :: rest')
      | .error e => .error e
    | .error e => .error e

/-- dot_to_mg_graph(path, labels), applied to the graph read_dot yields
for the path: set every node's "labels" attribute to the given list and
its "name" attribute to its "label" attribute stripped of surrounding
quote characters. -/
def dot_to_mg_graph (g : DotGraph) (labels : List String) :
    Except PyError DotGraph :=
  match annotateNodes labels g.nodes with
  | .ok nodes' => .ok ⟨nodes', g.edges⟩
  | .error e => .error e

/-- The statement loop of dot_to_memgraph: execute each query in turn
against the given endpoint; a failed connection raises out of the loop. -/
def execQueries (env : Env) (host : String) (port : Nat) :
    List String → List Event × Except PyError Unit
  | [] => ([], .ok ())
  | q :: rest =>
    if env.mgReady host port then
      let t := execQueries env host port rest
      (.mgExecute host port q :: t.1, t.2)
    else
      ([.mgExecute host port q], .error .connectionError)

/-- dot_to_memgraph(path, labels, host, port).  Note that the readiness
gate calls is_memgraph_ready() with no arguments, so it always probes the
default endpoint 127.0.0.1:7687 no matter which host and port were
passed; the statements themselves are executed against the given host
and port. -/
def dot_to_memgraph (env : Env) (path : String) (labels : List String)
    (host : String := "127.0.0.1") (port : Nat := 7687) :
    List Event × Except PyError Unit :=
  match is_memgraph_ready env "127.0.0.1" 7687 with
  | (ge, .ok false) =>
    (.load path labels :: ge ++ [.logWarning "Memgraph is not ready."], .ok ())
  | (ge, .ok true) =>
    match dot_to_mg_graph (env.readDot path) labels with
    | .error e => (.load path labels :: ge, .error e)
    | .ok g =>
      let t := execQueries env host port (env.nxToCypher g)
      (.load path labels :: ge ++ t.1, t.2)
  | (ge, .error e) => (.load path labels :: ge, .error e)

/-- is_cmake_ready(): subprocess.run(["cmake","--version"]) inside
try/except.  The run is made without check=True, so only a missing
binary raises (and is caught); the probe's exit status is never
consulted. -/
def is_cmake_ready (env : Env) : List Event × Except PyError Bool :=
  if env.cmakeInvocable then
    ([.runCmd ["cmake", "--version"]], .ok true)
  else
    ([.printMsg "cmake is not available, please installed it."], .ok false)

/-- generate_cmake_dot(working_dir, output_file). -/
def generate_cmake_dot (working_dir output_file : String) : List Event :=
  [.chdir working_dir, .runCmd ["cmake", "--graphviz=" ++ output_file, ".."]]

/-- generate_pip_dot(working_dir, output_file). -/
def generate_pip_dot (working_dir output_file : String) : List Event :=
  [.chdir working_dir, .writeFile output_file,
   .runCmd ["pipdeptree", "--graph-output", "dot"]]

/-- The events of the first probe of is_cargo_ready: the spawn happens
only when the binary exists. -/
def cargoVersionEvents (env : Env) : List Event :=
  if env.cargoInvocable then [.runCmd ["cargo", "--version"]] else []

/-- is_cargo_ready(): the first run (cargo --version, check=True) sits in
a try/except, so a missing binary or non-zero exit yields False.  The
second run (cargo install --list, check=True) is outside any try: a
non-zero exit raises CalledProcessError out of the function, which makes
the subsequent returncode test dead code (kept below, faithfully
unreachable).  Otherwise the result is the substring test of
"cargo-deps" against the captured listing. -/
def is_cargo_ready (env : Env) : List Event × Except PyError Bool :=
  if env.cargoInvocable = false ∨ env.cargoVersionExit ≠ 0 then
    (cargoVersionEvents env ++
      [.printMsg "cargo is not available, please installed it."], .ok false)
  else if env.cargoListExit ≠ 0 then
    ([.runCmd ["cargo", "--version"], .runCmd ["cargo", "install", "--list"]],
     .error .calledProcessError)
  else if env.cargoListExit ≠ 0 then
    ([.runCmd ["cargo", "--version"], .runCmd ["cargo", "install", "--list"],
      .printMsg "Check of the cargo-deps failed, check installation of cargo."],
     .ok false)
  else if containsSubstr env.cargoListStdout "cargo-deps" then
    ([.runCmd ["cargo", "--version"], .runCmd ["cargo", "install", "--list"]],
     .ok true)
  else
    ([.runCmd ["cargo", "--version"], .runCmd ["cargo", "install", "--list"],
      .printMsg "cargo-deps is not available, please installed it."],
     .ok false)

/-- generate_cargo_dot(working_dir, output_file). -/
def generate_cargo_dot (working_dir output_file : String) : List Event :=
  [.chdir working_dir, .writeFile output_file, .runCmd ["cargo", "deps"]]

/-- dot_to_png(input_file, output_file). -/
def dot_to_png (input_file output_file : String) : List Event :=
  [.runCmd ["dot", "-Tpng", "-o", output_file, input_file]]

/-- The cmake branch of main: if is_cmake_ready() and args.cpp_dir is not
None, generate cppdeps.dot, render cppdeps.png, and load tagged with the
Cpp category. -/
def cmakePhase (env : Env) (cpp_dir : Option String) :
    List Event × Except PyError Unit :=
  match is_cmake_ready env with
  | (e, .ok true) =>
    match cpp_dir with
    | some d =>
      let cppdeps_dot := pathJoin WORK_DIRECTORY "cppdeps.dot"
      let cppdeps_png := pathJoin WORK_DIRECTORY "cppdeps.png"
      let t := dot_to_memgraph env cppdeps_dot ["Cpp"]
      (e ++ generate_cmake_dot d cppdeps_dot ++
        dot_to_png cppdeps_dot cppdeps_png ++ t.1, t.2)
    | none => (e, .ok ())
  | (e, .ok false) => (e, .ok ())
  | (e, .error er) => (e, .error er)

/-- The unconditional pip branch of main: generate pydeps.dot in the
working directory, render pydeps.png, and load tagged with the Python
category. -/
def pipPhase (env : Env) : List Event × Except PyError Unit :=
  let pydeps_dot := pathJoin WORK_DIRECTORY "pydeps.dot"
  let pydeps_png := pathJoin WORK_DIRECTORY "pydeps.png"
  let t := dot_to_memgraph env pydeps_dot ["Python"]
  (generate_pip_dot WORK_DIRECTORY pydeps_dot ++
    dot_to_png pydeps_dot pydeps_png ++ t.1, t.2)

/-- One iteration of the cargo module loop, for the subdirectory of the
given name: generate rsdeps_name.dot, render rsdeps_name.png, and load
tagged with the Rust category. -/
def cargoModule (env : Env) (rust_dir name : String) :
    List Event × Except PyError Unit :=
  let module := pathJoin rust_dir name
  let rsdeps_dot := pathJoin WORK_DIRECTORY ("rsdeps_" ++ name ++ ".dot")
  let rsdeps_png := pathJoin WORK_DIRECTORY ("rsdeps_" ++ name ++ ".png")
  let t := dot_to_memgraph env rsdeps_dot ["Rust"]
  (generate_cargo_dot module rsdeps_dot ++
    dot_to_png rsdeps_dot rsdeps_png ++ t.1, t.2)

/-- The cargo module loop: iterate over the scandir entries of rust_dir,
skipping entries that are not directories or whose directory holds no
Cargo.toml. -/
def cargoModules (env : Env) (rust_dir : String) :
    List DirEntry → List Event × Except PyError Unit
  | [] => ([], .ok ())
  | entry :: rest =>
    if entry.isDir &&
        env.isFile (pathJoin (pathJoin rust_dir entry.name) "Cargo.toml") then
      match cargoModule env rust_dir entry.name with
      | (e, .ok _) =>
        let t := cargoModules env rust_dir rest
        (e ++ t.1, t.2)
      | (e, .error er) => (e, .error er)
    else cargoModules env rust_dir rest

/-- The cargo branch of main: if is_cargo_ready() and args.rust_dir is
not None, run the module loop over the scandir entries.  An exception
escaping is_cargo_ready propagates. -/
def cargoPhase (env : Env) (rust_dir : Option String) :
    List Event × Except PyError Unit :=
  match is_cargo_ready env with
  | (e, .ok true) =>
    match rust_dir with
    | some d =>
      let t := cargoModules env d (env.scandir d)
      (e ++ t.1, t.2)
    | none => (e, .ok ())
  | (e, .ok false) => (e, .ok ())
  | (e, .error er) => (e, .error er)

/-- The parsed command-line arguments. --python-dir is declared by the
argument parser with default None but never read afterwards. -/
structure Args where
  clean : Bool
  cpp_dir : Option String
  python_dir : Option String
  rust_dir : Option String
  deriving DecidableEq, Repr

/-- main(args) of the source (the name main is reserved by Lean for an
entry point, hence mainFlow): the cmake branch, then the unconditional
pip branch, then the cargo branch; an uncaught exception in a branch
aborts the ones after it. -/
def mainFlow (env : Env) (args : Args) : List Event × Except PyError Unit :=
  match cmakePhase env args.cpp_dir with
  | (e1, .error er) => (e1, .error er)
  | (e1, .ok _) =>
    match pipPhase env with
    | (e2, .error er) => (e1 ++ e2, .error er)
    | (e2, .ok _) =>
      let t := cargoPhase env args.rust_dir
      (e1 ++ e2 ++ t.1, t.2)

/-- The top-level entry: with --clean, chdir to the working directory and
run the shell command rm *.dot* *.png, touching no database; otherwise
probe the default endpoint and, if it is ready, delete all stored data
with MATCH (n) DETACH DELETE n; before running main(args). -/
def programRun (env : Env) (args : Args) :
    List Event × Except PyError Unit :=
  if args.clean then
    ([.chdir WORK_DIRECTORY, .shellRun "rm *.dot* *.png"], .ok ())
  else
    match is_memgraph_ready env MG_HOST MG_PORT with
    | (ge, .ok true) =>
      let d := execQueries env MG_HOST MG_PORT ["MATCH (n) DETACH DELETE n;"]
      match d.2 with
      | .error er => (ge ++ d.1, .error er)
      | .ok _ =>
        let t := mainFlow env args
        (ge ++ d.1 ++ t.1, t.2)
    | (ge, .ok false) =>
      let t := mainFlow env args
      (ge ++ t.1, t.2)
    | (ge, .error er) => (ge, .error er)

/-- Shell glob match for the pattern *.dot* of the clean command: a
wildcard never matches a leading period (POSIX pathname expansion), and
the rest of the pattern requires the characters .dot to occur
contiguously in the name. -/
def matchesDotStarGlob (name : String) : Bool :=
  !strStartsWith name "." && containsSubstr name ".dot"

/-- Shell glob match for the pattern *.png of the clean command: a
wildcard never matches a leading period, and the name must end in
.png. -/
def matchesPngGlob (name : String) : Bool :=
  !strStartsWith name "." && strEndsWith name ".png"

/-- The effect of the clean command rm *.dot* *.png on the list of file
names in the working directory: the names matching either glob are
removed, the others survive. -/
def cleanShellEffect (files : List String) : List String :=
  files.filter (fun n => !(matchesDotStarGlob n || matchesPngGlob n))

/-- A name with a .dot or .png extension. -/
def hasDotOrPngExt (name : String) : Bool :=
  strEndsWith name ".dot" || strEndsWith name ".png"

/-- The loader calls recorded in a trace: the DOT path and label list of
each dot_to_memgraph invocation, in order. -/
def loadsOf (tr : List Event) : List (String × List String) :=
  tr.filterMap fun e =>
    match e with
    | .load p ls => some (p, ls)
    | _ => none

/-- The spawned external commands recorded in a trace, in order. -/
def runsOf (tr : List Event) : List (List String) :=
  tr.filterMap fun e =>
    match e with
    | .runCmd a => some a
    | _ => none

/-- The files opened for writing recorded in a trace, in order. -/
def writesOf (tr : List Event) : List String :=
  tr.filterMap fun e =>
    match e with
    | .writeFile p => some p
    | _ => none

/-- The PNG outputs of the graph renderer recorded in a trace, in
order. -/
def pngRendersOf (tr : List Event) : List String :=
  tr.filterMap fun e =>
    match e with
    | .runCmd ["dot", "-Tpng", "-o", out, _] => some out
    | _ => none

/-- The database statements executed in a trace: endpoint and query of
every mgExecute, in order. -/
def execsOf (tr : List Event) : List (String × Nat × String) :=
  tr.filterMap fun e =>
    match e with
    | .mgExecute h p q => some (h, p, q)
    | _ => none

/-- The readiness probes recorded in a trace, in order. -/
def probesOf (tr : List Event) : List (String × Nat) :=
  tr.filterMap fun e =>
    match e with
    | .mgProbe h p => some (h, p)
    | _ => none

/-- The contents of the database at the default endpoint, as the list of
statements inserted since the last wipe: executing the delete statement
resets the state, any other executed statement accumulates. -/
def dbStatements (init : List String) : List Event → List String
  | [] => init
  | .mgExecute h p q :: rest =>
    if h = MG_HOST ∧ p = MG_PORT then
      if q = "MATCH (n) DETACH DELETE n;" then dbStatements [] rest
      else dbStatements (init ++ [q]) rest
    else dbStatements init rest
  | _ :: rest => dbStatements init rest

/-- Well-formedness of the graphs the pydot reader yields: every node
carries a string "label" attribute.  The DOT emitters the script invokes
(cmake --graphviz, pipdeptree, cargo deps) all write node labels; without
one the loader raises KeyError. -/
def WellLabeled (env : Env) : Prop :=
  ∀ path, ∀ n ∈ (env.readDot path).nodes,
    ∃ s, getAttr n.data "label" = some (.str s)


/-- A base environment for concrete instances: nothing is reachable or
installed, every DOT file parses to the empty graph. -/
def envBase : Env where
  mgReady := fun _ _ => false
  cmakeInvocable := false
  cmakeVersionExit := 0
  cargoInvocable := false
  cargoVersionExit := 0
  cargoListExit := 0
  cargoListStdout := ""
  readDot := fun _ => ⟨[], []⟩
  nxToCypher := fun _ => []
  scandir := fun _ => []
  isFile := fun _ => false

/-- An environment whose Memgraph endpoint is reachable everywhere. -/
def envReady : Env := { envBase with mgReady := fun _ _ => true }

/-- An environment where the cmake binary exists but the probe command
cmake --version exits with status 1. -/
def envCmakeBadExit : Env :=
  { envBase with cmakeInvocable := true, cmakeVersionExit := 1 }

/-- An environment where cargo --version succeeds but
cargo install --list exits with status 1 while its captured output does
name cargo-deps. -/
def envCargoListBad : Env :=
  { envBase with
      cargoInvocable := true
      cargoListExit := 1
      cargoListStdout := "cargo-deps v1.0.0:" }

/-- An environment for the analyze-flow instances: cmake present,
database reachable, every DOT file parsing to a one-node labelled
graph that converts to a single statement. -/
def envC6 : Env :=
  { envBase with
      cmakeInvocable := true
      mgReady := fun _ _ => true
      readDot := fun _ => ⟨[⟨"n0", [("label", .str "n0")]⟩], []⟩
      nxToCypher := fun _ => ["CREATE (n);"] }

/-- An environment where cargo and cargo-deps are ready and the rust
directory /rust holds two subdirectories of which only alpha has a
Cargo.toml. -/
def envC7 : Env :=
  { envBase with
      cargoInvocable := true
      cargoListStdout := "cargo-deps v1.0.0:"
      scandir := fun _ => [⟨"alpha", true⟩, ⟨"beta", true⟩]
      isFile := fun p => p == "/rust/alpha/Cargo.toml" }

/-- An environment that is reachable only at the default endpoint
127.0.0.1:7687, with a one-node labelled graph behind every DOT path. -/
def envC10 : Env :=
  { envBase with
      mgReady := fun h p => h == "127.0.0.1" && p == 7687
      readDot := fun _ => ⟨[⟨"n0", [("label", .str "n0")]⟩], []⟩
      nxToCypher := fun _ => ["CREATE (n);"] }

/-- A one-node input graph whose label carries surrounding double
quotes. -/
def gInC1 : DotGraph :=
  ⟨[⟨"a", [("label", .str "\"hi\"")]⟩], [("a", "a")]⟩

/-- The annotated graph the loader produces from gInC1 with the
singleton Python label list. -/
def gOutC1 : DotGraph :=
  ⟨[⟨"a", [("label", .str "\"hi\""), ("labels", .list ["Python"]),
      ("name", .str "hi")]⟩], [("a", "a")]⟩


theorem getAttr_setAttr_self (d : Attrs) (k : String) (v : AttrVal) :
    getAttr (setAttr d k v) k = some v := by
  induction d with
  | nil => simp [setAttr, getAttr]
  | cons hd tl ih =>
    obtain ⟨k', v'⟩ := hd
    by_cases h : k' = k
    · subst h
      simp [setAttr, getAttr]
    · simp [setAttr, getAttr, h, ih]

theorem getAttr_setAttr_ne (d : Attrs) (k k' : String) (v : AttrVal)
    (h : k ≠ k') : getAttr (setAttr d k v) k' = getAttr d k' := by
  induction d with
  | nil => simp [setAttr, getAttr, h]
  | cons hd tl ih =>
    obtain ⟨k₀, v₀⟩ := hd
    by_cases h0 : k₀ = k
    · subst h0
      simp [setAttr, getAttr, h]
    · simp [setAttr, getAttr, h0, ih]

/-- What one loop iteration of dot_to_mg_graph guarantees for a node it
annotates successfully. -/
def nodeAnnotated (labels : List String) (n n' : DotNode) : Prop :=
  n'.id = n.id ∧
  ∃ s, getAttr n.data "label" = some (.str s) ∧
    getAttr n'.data "label" = some (.str s) ∧
    getAttr n'.data "name" = some (.str (pyStrip pyQuoteChars s)) ∧
    getAttr n'.data "labels" = some (.list labels)

theorem annotateNode_spec (labels : List String) (n n' : DotNode)
    (h : annotateNode labels n = .ok n') : nodeAnnotated labels n n' := by
  rw [annotateNode.eq_def] at h
  rcases hg : getAttr (setAttr n.data "labels" (.list labels)) "label" with
    _ | v
  · rw [hg] at h
    exact absurd h (by simp)
  · rcases v with s | l
    · rw [hg] at h
      simp only [Except.ok.injEq] at h
      subst h
      have hlab : getAttr (setAttr n.data "labels" (.list labels)) "label" =
          getAttr n.data "label" := getAttr_setAttr_ne _ _ _ _ (by decide)
      refine ⟨rfl, s, ?_, ?_, ?_, ?_⟩
      · rw [← hlab, hg]
      · rw [getAttr_setAttr_ne _ _ _ _ (by decide), hg]
      · exact getAttr_setAttr_self _ _ _
      · rw [getAttr_setAttr_ne _ _ _ _ (by decide),
          getAttr_setAttr_self _ _ _]
    · rw [hg] at h
      exact absurd h (by simp)

theorem annotateNodes_spec (labels : List String) :
    ∀ ns ns', annotateNodes labels ns = .ok ns' →
      List.Forall₂ (nodeAnnotated labels) ns ns' := by
  intro ns
  induction ns with
  | nil =>
    intro ns' h
    simp only [annotateNodes, Except.ok.injEq] at h
    subst h
    exact List.Forall₂.nil
  | cons n rest ih =>
    intro ns' h
    simp only [annotateNodes] at h
    rcases h1 : annotateNode labels n with e | n'
    · rw [h1] at h
      exact absurd h (by simp)
    · rw [h1] at h
      rcases h2 : annotateNodes labels rest with e | rest'
      · rw [h2] at h
        exact absurd h (by simp)
      · rw [h2] at h
        simp only [Except.ok.injEq] at h
        subst h
        exact List.Forall₂.cons (annotateNode_spec labels n n' h1) (ih rest' h2)

theorem annotateNodes_ok (labels : List String) :
    ∀ ns, (∀ n ∈ ns, ∃ s, getAttr n.data "label" = some (.str s)) →
      ∃ ns', annotateNodes labels ns = .ok ns' := by
  intro ns
  induction ns with
  | nil => exact fun _ => ⟨[], rfl⟩
  | cons n rest ih =>
    intro h
    obtain ⟨s, hs⟩ := h n (by simp)
    obtain ⟨rest', hrest⟩ := ih fun m hm => h m (by simp [hm])
    have hlab : getAttr (setAttr n.data "labels" (.list labels)) "label" =
        getAttr n.data "label" := getAttr_setAttr_ne _ _ _ _ (by decide)
    refine ⟨⟨n.id, setAttr (setAttr n.data "labels" (.list labels)) "name"
      (.str (pyStrip pyQuoteChars s))⟩ :: rest', ?_⟩
    simp only [annotateNodes, annotateNode, hlab, hs, hrest]

theorem dot_to_mg_graph_ok (g : DotGraph) (labels : List String)
    (h : ∀ n ∈ g.nodes, ∃ s, getAttr n.data "label" = some (.str s)) :
    ∃ g', dot_to_mg_graph g labels = .ok g' := by
  obtain ⟨ns', hns⟩ := annotateNodes_ok labels g.nodes h
  exact ⟨⟨ns', g.edges⟩, by simp [dot_to_mg_graph, hns]⟩

theorem execQueries_ready (env : Env) (host : String) (port : Nat)
    (hr : env.mgReady host port = true) (qs : List String) :
    execQueries env host port qs =
      (qs.map (Event.mgExecute host port), .ok ()) := by
  induction qs with
  | nil => rfl
  | cons q rest ih => simp [execQueries, hr, ih]

theorem execQueries_events (env : Env) (host : String) (port : Nat)
    (qs : List String) :
    ∀ ev ∈ (execQueries env host port qs).1, ∃ q, ev = .mgExecute host port q := by
  induction qs with
  | nil => simp [execQueries]
  | cons q rest ih =>
    intro ev hev
    cases hr : env.mgReady host port with
    | true =>
      simp only [execQueries, hr, if_true, List.mem_cons] at hev
      rcases hev with rfl | hev
      · exact ⟨q, rfl⟩
      · exact ih ev hev
    | false =>
      simp [execQueries, hr] at hev
      exact ⟨q, hev⟩

theorem loadsOf_execQueries (env : Env) (host : String) (port : Nat)
    (qs : List String) : loadsOf (execQueries env host port qs).1 = [] := by
  rw [loadsOf, List.filterMap_eq_nil_iff]
  intro ev hev
  obtain ⟨q, rfl⟩ := execQueries_events env host port qs ev hev
  rfl

theorem runsOf_execQueries (env : Env) (host : String) (port : Nat)
    (qs : List String) : runsOf (execQueries env host port qs).1 = [] := by
  rw [runsOf, List.filterMap_eq_nil_iff]
  intro ev hev
  obtain ⟨q, rfl⟩ := execQueries_events env host port qs ev hev
  rfl

theorem writesOf_execQueries (env : Env) (host : String) (port : Nat)
    (qs : List String) : writesOf (execQueries env host port qs).1 = [] := by
  rw [writesOf, List.filterMap_eq_nil_iff]
  intro ev hev
  obtain ⟨q, rfl⟩ := execQueries_events env host port qs ev hev
  rfl

theorem pngRendersOf_execQueries (env : Env) (host : String) (port : Nat)
    (qs : List String) :
    pngRendersOf (execQueries env host port qs).1 = [] := by
  rw [pngRendersOf, List.filterMap_eq_nil_iff]
  intro ev hev
  obtain ⟨q, rfl⟩ := execQueries_events env host port qs ev hev
  rfl

theorem dot_to_memgraph_not_ready (env : Env) (path : String)
    (labels : List String) (host : String) (port : Nat)
    (hr : env.mgReady "127.0.0.1" 7687 = false) :
    dot_to_memgraph env path labels host port =
      ([.load path labels, .mgProbe "127.0.0.1" 7687,
        .logWarning "Memgraph is not ready."], .ok ()) := by
  simp [dot_to_memgraph, is_memgraph_ready, hr]

theorem dot_to_memgraph_ready_ok (env : Env) (path : String)
    (labels : List String) (host : String) (port : Nat) (g : DotGraph)
    (hr : env.mgReady "127.0.0.1" 7687 = true)
    (hg : dot_to_mg_graph (env.readDot path) labels = .ok g) :
    dot_to_memgraph env path labels host port =
      (.load path labels :: .mgProbe "127.0.0.1" 7687 ::
        (execQueries env host port (env.nxToCypher g)).1,
       (execQueries env host port (env.nxToCypher g)).2) := by
  simp [dot_to_memgraph, is_memgraph_ready, hr, hg]

theorem dot_to_memgraph_ready_err (env : Env) (path : String)
    (labels : List String) (host : String) (port : Nat) (e : PyError)
    (hr : env.mgReady "127.0.0.1" 7687 = true)
    (hg : dot_to_mg_graph (env.readDot path) labels = .error e) :
    dot_to_memgraph env path labels host port =
      ([.load path labels, .mgProbe "127.0.0.1" 7687], .error e) := by
  simp [dot_to_memgraph, is_memgraph_ready, hr, hg]

theorem dot_to_memgraph_defaults_ok (env : Env) (path : String)
    (labels : List String) (hw : WellLabeled env) :
    (dot_to_memgraph env path labels "127.0.0.1" 7687).2 = .ok () := by
  cases hr : env.mgReady "127.0.0.1" 7687 with
  | false => rw [dot_to_memgraph_not_ready env path labels _ _ hr]
  | true =>
    obtain ⟨g, hg⟩ := dot_to_mg_graph_ok (env.readDot path) labels (hw path)
    rw [dot_to_memgraph_ready_ok env path labels _ _ g hr hg]
    simp [execQueries_ready env _ _ hr]

theorem loadsOf_dot_to_memgraph (env : Env) (path : String)
    (labels : List String) (host : String) (port : Nat) :
    loadsOf (dot_to_memgraph env path labels host port).1 = [(path, labels)] := by
  cases hr : env.mgReady "127.0.0.1" 7687 with
  | false => rw [dot_to_memgraph_not_ready env path labels _ _ hr]; rfl
  | true =>
    cases hg : dot_to_mg_graph (env.readDot path) labels with
    | error e => rw [dot_to_memgraph_ready_err env path labels _ _ e hr hg]; rfl
    | ok g =>
      rw [dot_to_memgraph_ready_ok env path labels _ _ g hr hg]
      have h2 := loadsOf_execQueries env host port (env.nxToCypher g)
      simp only [loadsOf, List.filterMap_cons] at h2 ⊢
      simp [h2]

theorem runsOf_dot_to_memgraph (env : Env) (path : String)
    (labels : List String) (host : String) (port : Nat) :
    runsOf (dot_to_memgraph env path labels host port).1 = [] := by
  cases hr : env.mgReady "127.0.0.1" 7687 with
  | false => rw [dot_to_memgraph_not_ready env path labels _ _ hr]; rfl
  | true =>
    cases hg : dot_to_mg_graph (env.readDot path) labels with
    | error e => rw [dot_to_memgraph_ready_err env path labels _ _ e hr hg]; rfl
    | ok g =>
      rw [dot_to_memgraph_ready_ok env path labels _ _ g hr hg]
      have h2 := runsOf_execQueries env host port (env.nxToCypher g)
      simp only [runsOf, List.filterMap_cons] at h2 ⊢
      simp [h2]

theorem writesOf_dot_to_memgraph (env : Env) (path : String)
    (labels : List String) (host : String) (port : Nat) :
    writesOf (dot_to_memgraph env path labels host port).1 = [] := by
  cases hr : env.mgReady "127.0.0.1" 7687 with
  | false => rw [dot_to_memgraph_not_ready env path labels _ _ hr]; rfl
  | true =>
    cases hg : dot_to_mg_graph (env.readDot path) labels with
    | error e => rw [dot_to_memgraph_ready_err env path labels _ _ e hr hg]; rfl
    | ok g =>
      rw [dot_to_memgraph_ready_ok env path labels _ _ g hr hg]
      have h2 := writesOf_execQueries env host port (env.nxToCypher g)
      simp only [writesOf, List.filterMap_cons] at h2 ⊢
      simp [h2]

theorem pngRendersOf_dot_to_memgraph (env : Env) (path : String)
    (labels : List String) (host : String) (port : Nat) :
    pngRendersOf (dot_to_memgraph env path labels host port).1 = [] := by
  cases hr : env.mgReady "127.0.0.1" 7687 with
  | false => rw [dot_to_memgraph_not_ready env path labels _ _ hr]; rfl
  | true =>
    cases hg : dot_to_mg_graph (env.readDot path) labels with
    | error e => rw [dot_to_memgraph_ready_err env path labels _ _ e hr hg]; rfl
    | ok g =>
      rw [dot_to_memgraph_ready_ok env path labels _ _ g hr hg]
      have h2 := pngRendersOf_execQueries env host port (env.nxToCypher g)
      simp only [pngRendersOf, List.filterMap_cons] at h2 ⊢
      simp [h2]

theorem cmakePhase_no_cmake (env : Env) (cpp_dir : Option String)
    (h : env.cmakeInvocable = false) :
    cmakePhase env cpp_dir =
      ([.printMsg "cmake is not available, please installed it."], .ok ()) := by
  simp [cmakePhase, is_cmake_ready, h]

theorem cmakePhase_no_dir (env : Env) (h : env.cmakeInvocable = true) :
    cmakePhase env none = ([.runCmd ["cmake", "--version"]], .ok ()) := by
  simp [cmakePhase, is_cmake_ready, h]

theorem cmakePhase_active (env : Env) (d : String)
    (h : env.cmakeInvocable = true) :
    cmakePhase env (some d) =
      (.runCmd ["cmake", "--version"] ::
        generate_cmake_dot d (pathJoin WORK_DIRECTORY "cppdeps.dot") ++
        dot_to_png (pathJoin WORK_DIRECTORY "cppdeps.dot")
          (pathJoin WORK_DIRECTORY "cppdeps.png") ++
        (dot_to_memgraph env (pathJoin WORK_DIRECTORY "cppdeps.dot")
          ["Cpp"]).1,
       (dot_to_memgraph env (pathJoin WORK_DIRECTORY "cppdeps.dot")
         ["Cpp"]).2) := by
  simp [cmakePhase, is_cmake_ready, h]

theorem cmakePhase_ok (env : Env) (cpp_dir : Option String)
    (hw : WellLabeled env) : (cmakePhase env cpp_dir).2 = .ok () := by
  cases h : env.cmakeInvocable with
  | false => rw [cmakePhase_no_cmake env cpp_dir h]
  | true =>
    cases cpp_dir with
    | none => rw [cmakePhase_no_dir env h]
    | some d =>
      rw [cmakePhase_active env d h]
      exact dot_to_memgraph_defaults_ok env _ _ hw

theorem pipPhase_ok (env : Env) (hw : WellLabeled env) :
    (pipPhase env).2 = .ok () := by
  simp only [pipPhase]
  exact dot_to_memgraph_defaults_ok env _ _ hw

theorem loadsOf_pipPhase (env : Env) :
    loadsOf (pipPhase env).1 =
      [(pathJoin WORK_DIRECTORY "pydeps.dot", ["Python"])] := by
  have h2 := loadsOf_dot_to_memgraph env
    (pathJoin WORK_DIRECTORY "pydeps.dot") ["Python"] "127.0.0.1" 7687
  simp only [loadsOf] at h2 ⊢
  simp [pipPhase, generate_pip_dot, dot_to_png, List.filterMap_append, h2]

theorem runsOf_pipPhase (env : Env) :
    runsOf (pipPhase env).1 =
      [["pipdeptree", "--graph-output", "dot"],
       ["dot", "-Tpng", "-o", pathJoin WORK_DIRECTORY "pydeps.png",
        pathJoin WORK_DIRECTORY "pydeps.dot"]] := by
  have h2 := runsOf_dot_to_memgraph env
    (pathJoin WORK_DIRECTORY "pydeps.dot") ["Python"] "127.0.0.1" 7687
  simp only [runsOf] at h2 ⊢
  simp [pipPhase, generate_pip_dot, dot_to_png, List.filterMap_append, h2]

theorem cargoModule_ok (env : Env) (rust_dir name : String)
    (hw : WellLabeled env) : (cargoModule env rust_dir name).2 = .ok () := by
  simp only [cargoModule]
  exact dot_to_memgraph_defaults_ok env _ _ hw

theorem loadsOf_cargoModule (env : Env) (rust_dir name : String) :
    loadsOf (cargoModule env rust_dir name).1 =
      [(pathJoin WORK_DIRECTORY ("rsdeps_" ++ name ++ ".dot"), ["Rust"])] := by
  have h2 := loadsOf_dot_to_memgraph env
    (pathJoin WORK_DIRECTORY ("rsdeps_" ++ name ++ ".dot")) ["Rust"]
    "127.0.0.1" 7687
  simp only [loadsOf] at h2 ⊢
  simp [cargoModule, generate_cargo_dot, dot_to_png, List.filterMap_append, h2]

theorem writesOf_cargoModule (env : Env) (rust_dir name : String) :
    writesOf (cargoModule env rust_dir name).1 =
      [pathJoin WORK_DIRECTORY ("rsdeps_" ++ name ++ ".dot")] := by
  have h2 := writesOf_dot_to_memgraph env
    (pathJoin WORK_DIRECTORY ("rsdeps_" ++ name ++ ".dot")) ["Rust"]
    "127.0.0.1" 7687
  simp only [writesOf] at h2 ⊢
  simp [cargoModule, generate_cargo_dot, dot_to_png, List.filterMap_append, h2]

theorem pngRendersOf_cargoModule (env : Env) (rust_dir name : String) :
    pngRendersOf (cargoModule env rust_dir name).1 =
      [pathJoin WORK_DIRECTORY ("rsdeps_" ++ name ++ ".png")] := by
  have h2 := pngRendersOf_dot_to_memgraph env
    (pathJoin WORK_DIRECTORY ("rsdeps_" ++ name ++ ".dot")) ["Rust"]
    "127.0.0.1" 7687
  simp only [pngRendersOf] at h2 ⊢
  simp [cargoModule, generate_cargo_dot, dot_to_png, List.filterMap_append, h2]

theorem runsOf_cargoModule (env : Env) (rust_dir name : String) :
    runsOf (cargoModule env rust_dir name).1 =
      [["cargo", "deps"],
       ["dot", "-Tpng", "-o",
        pathJoin WORK_DIRECTORY ("rsdeps_" ++ name ++ ".png"),
        pathJoin WORK_DIRECTORY ("rsdeps_" ++ name ++ ".dot")]] := by
  have h2 := runsOf_dot_to_memgraph env
    (pathJoin WORK_DIRECTORY ("rsdeps_" ++ name ++ ".dot")) ["Rust"]
    "127.0.0.1" 7687
  simp only [runsOf] at h2 ⊢
  simp [cargoModule, generate_cargo_dot, dot_to_png, List.filterMap_append, h2]

/-- Whether the module loop treats a scandir entry of rust_dir as a
module: a subdirectory holding a Cargo.toml. -/
def isCargoModule (env : Env) (rust_dir : String) (e : DirEntry) : Bool :=
  e.isDir && env.isFile (pathJoin (pathJoin rust_dir e.name) "Cargo.toml")

theorem loadsOf_cargoModules (env : Env) (rust_dir : String)
    (hw : WellLabeled env) :
    ∀ es, loadsOf (cargoModules env rust_dir es).1 =
      (es.filter (isCargoModule env rust_dir)).map
        (fun e => (pathJoin WORK_DIRECTORY ("rsdeps_" ++ e.name ++ ".dot"),
          ["Rust"])) := by
  intro es
  induction es with
  | nil => rfl
  | cons entry rest ih =>
    cases hq : isCargoModule env rust_dir entry with
    | false =>
      simp only [isCargoModule] at hq
      simp [cargoModules, hq, List.filter_cons, isCargoModule, ih]
    | true =>
      have hok := cargoModule_ok env rust_dir entry.name hw
      have h2 := loadsOf_cargoModule env rust_dir entry.name
      rcases hcm : cargoModule env rust_dir entry.name with ⟨ce, cr⟩
      rw [hcm] at hok h2
      simp only at hok
      subst hok
      simp only [isCargoModule] at hq
      simp only [loadsOf] at h2 ih ⊢
      simp [cargoModules, hq, hcm, List.filterMap_append, h2,
        List.filter_cons, isCargoModule, ih]

theorem writesOf_cargoModules (env : Env) (rust_dir : String)
    (hw : WellLabeled env) :
    ∀ es, writesOf (cargoModules env rust_dir es).1 =
      (es.filter (isCargoModule env rust_dir)).map
        (fun e => pathJoin WORK_DIRECTORY ("rsdeps_" ++ e.name ++ ".dot")) := by
  intro es
  induction es with
  | nil => rfl
  | cons entry rest ih =>
    cases hq : isCargoModule env rust_dir entry with
    | false =>
      simp only [isCargoModule] at hq
      simp [cargoModules, hq, List.filter_cons, isCargoModule, ih]
    | true =>
      have hok := cargoModule_ok env rust_dir entry.name hw
      have h2 := writesOf_cargoModule env rust_dir entry.name
      rcases hcm : cargoModule env rust_dir entry.name with ⟨ce, cr⟩
      rw [hcm] at hok h2
      simp only at hok
      subst hok
      simp only [isCargoModule] at hq
      simp only [writesOf] at h2 ih ⊢
      simp [cargoModules, hq, hcm, List.filterMap_append, h2,
        List.filter_cons, isCargoModule, ih]

theorem pngRendersOf_cargoModules (env : Env) (rust_dir : String)
    (hw : WellLabeled env) :
    ∀ es, pngRendersOf (cargoModules env rust_dir es).1 =
      (es.filter (isCargoModule env rust_dir)).map
        (fun e => pathJoin WORK_DIRECTORY ("rsdeps_" ++ e.name ++ ".png")) := by
  intro es
  induction es with
  | nil => rfl
  | cons entry rest ih =>
    cases hq : isCargoModule env rust_dir entry with
    | false =>
      simp only [isCargoModule] at hq
      simp [cargoModules, hq, List.filter_cons, isCargoModule, ih]
    | true =>
      have hok := cargoModule_ok env rust_dir entry.name hw
      have h2 := pngRendersOf_cargoModule env rust_dir entry.name
      rcases hcm : cargoModule env rust_dir entry.name with ⟨ce, cr⟩
      rw [hcm] at hok h2
      simp only at hok
      subst hok
      simp only [isCargoModule] at hq
      simp only [pngRendersOf] at h2 ih ⊢
      simp [cargoModules, hq, hcm, List.filterMap_append, h2,
        List.filter_cons, isCargoModule, ih]

theorem is_cargo_ready_result (env : Env) :
    (is_cargo_ready env).2 =
      (if env.cargoInvocable = true ∧ env.cargoVersionExit = 0 then
        (if env.cargoListExit = 0 then
          .ok (containsSubstr env.cargoListStdout "cargo-deps")
         else .error .calledProcessError)
       else .ok false) := by
  cases hb : env.cargoInvocable with
  | false => simp [is_cargo_ready, hb]
  | true =>
    by_cases hv : env.cargoVersionExit = 0
    · by_cases hl : env.cargoListExit = 0
      · cases hc : containsSubstr env.cargoListStdout "cargo-deps" with
        | false => simp [is_cargo_ready, hb, hv, hl, hc]
        | true => simp [is_cargo_ready, hb, hv, hl, hc]
      · simp [is_cargo_ready, hb, hv, hl]
    · simp [is_cargo_ready, hb, hv]

theorem is_cargo_ready_true (env : Env) (h1 : env.cargoInvocable = true)
    (h2 : env.cargoVersionExit = 0) (h3 : env.cargoListExit = 0)
    (h4 : containsSubstr env.cargoListStdout "cargo-deps" = true) :
    is_cargo_ready env =
      ([.runCmd ["cargo", "--version"], .runCmd ["cargo", "install", "--list"]],
       .ok true) := by
  simp [is_cargo_ready, h1, h2, h3, h4]

theorem loadsOf_is_cargo_ready (env : Env) :
    loadsOf (is_cargo_ready env).1 = [] := by
  unfold is_cargo_ready cargoVersionEvents
  split_ifs <;> rfl

theorem writesOf_is_cargo_ready (env : Env) :
    writesOf (is_cargo_ready env).1 = [] := by
  unfold is_cargo_ready cargoVersionEvents
  split_ifs <;> rfl

theorem pngRendersOf_is_cargo_ready (env : Env) :
    pngRendersOf (is_cargo_ready env).1 = [] := by
  unfold is_cargo_ready cargoVersionEvents
  split_ifs <;> rfl

theorem runsOf_is_cargo_ready (env : Env) :
    ∀ x ∈ runsOf (is_cargo_ready env).1,
      x = ["cargo", "--version"] ∨ x = ["cargo", "install", "--list"] := by
  unfold is_cargo_ready cargoVersionEvents
  split_ifs <;> intro x hx <;> simp [runsOf] at hx <;> simp [hx]

theorem runsOf_cargoModules_shape (env : Env) (rust_dir : String) :
    ∀ es, ∀ x ∈ runsOf (cargoModules env rust_dir es).1,
      x = ["cargo", "deps"] ∨ ∃ a b, x = ["dot", "-Tpng", "-o", a, b] := by
  intro es
  induction es with
  | nil => simp [cargoModules, runsOf]
  | cons entry rest ih =>
    intro x hx
    by_cases hq : entry.isDir &&
        env.isFile (pathJoin (pathJoin rust_dir entry.name) "Cargo.toml")
    · have h2 := runsOf_cargoModule env rust_dir entry.name
      rcases hcm : cargoModule env rust_dir entry.name with ⟨ce, cr⟩
      rw [hcm] at h2
      simp only at h2
      cases cr with
      | error er =>
        simp only [cargoModules, hq, if_true, hcm] at hx
        rw [h2] at hx
        simp at hx
        rcases hx with rfl | rfl
        · exact Or.inl rfl
        · exact Or.inr ⟨_, _, rfl⟩
      | ok u =>
        simp only [cargoModules, hq, if_true, hcm] at hx
        have hx' : x ∈ runsOf (ce ++ (cargoModules env rust_dir rest).1) := hx
        rw [runsOf, List.filterMap_append] at hx'
        rcases List.mem_append.mp hx' with hl | hl
        · rw [show List.filterMap _ ce = runsOf ce from rfl, h2] at hl
          simp at hl
          rcases hl with rfl | rfl
          · exact Or.inl rfl
          · exact Or.inr ⟨_, _, rfl⟩
        · exact ih x hl
    · simp only [cargoModules, hq, if_false] at hx
      exact ih x hx

theorem loadsOf_cargoModules_rust (env : Env) (rust_dir : String) :
    ∀ es, ∀ x ∈ loadsOf (cargoModules env rust_dir es).1, x.2 = ["Rust"] := by
  intro es
  induction es with
  | nil => simp [cargoModules, loadsOf]
  | cons entry rest ih =>
    intro x hx
    by_cases hq : entry.isDir &&
        env.isFile (pathJoin (pathJoin rust_dir entry.name) "Cargo.toml")
    · have h2 := loadsOf_cargoModule env rust_dir entry.name
      rcases hcm : cargoModule env rust_dir entry.name with ⟨ce, cr⟩
      rw [hcm] at h2
      simp only at h2
      cases cr with
      | error er =>
        simp only [cargoModules, hq, if_true, hcm] at hx
        rw [h2] at hx
        simp at hx
        rw [hx]
      | ok u =>
        simp only [cargoModules, hq, if_true, hcm] at hx
        have hx' : x ∈ loadsOf (ce ++ (cargoModules env rust_dir rest).1) := hx
        rw [loadsOf, List.filterMap_append] at hx'
        rcases List.mem_append.mp hx' with hl | hl
        · rw [show List.filterMap _ ce = loadsOf ce from rfl, h2] at hl
          simp at hl
          rw [hl]
        · exact ih x hl
    · simp only [cargoModules, hq, if_false] at hx
      exact ih x hx

theorem loadsOf_cargoPhase_rust (env : Env) (rust_dir : Option String) :
    ∀ x ∈ loadsOf (cargoPhase env rust_dir).1, x.2 = ["Rust"] := by
  intro x hx
  have hic0 := loadsOf_is_cargo_ready env
  rcases hic : is_cargo_ready env with ⟨e, r⟩
  rw [hic] at hic0
  simp only at hic0
  unfold cargoPhase at hx
  rw [hic] at hx
  cases r with
  | error er =>
    simp only at hx
    rw [hic0] at hx
    exact absurd hx (List.not_mem_nil x)
  | ok b =>
    cases b with
    | false =>
      simp only at hx
      rw [hic0] at hx
      exact absurd hx (List.not_mem_nil x)
    | true =>
      cases rust_dir with
      | none =>
        simp only at hx
        rw [hic0] at hx
        exact absurd hx (List.not_mem_nil x)
      | some d =>
        simp only at hx
        have hx' : x ∈ loadsOf (e ++ (cargoModules env d (env.scandir d)).1) :=
          hx
        rw [loadsOf, List.filterMap_append] at hx'
        rcases List.mem_append.mp hx' with hl | hl
        · rw [show List.filterMap _ e = loadsOf e from rfl, hic0] at hl
          exact absurd hl (List.not_mem_nil x)
        · exact loadsOf_cargoModules_rust env d (env.scandir d) x hl

theorem runsOf_cargoPhase_shape (env : Env) (rust_dir : Option String) :
    ∀ x ∈ runsOf (cargoPhase env rust_dir).1,
      x = ["cargo", "--version"] ∨ x = ["cargo", "install", "--list"] ∨
      x = ["cargo", "deps"] ∨ ∃ a b, x = ["dot", "-Tpng", "-o", a, b] := by
  intro x hx
  have hic0 := runsOf_is_cargo_ready env
  rcases hic : is_cargo_ready env with ⟨e, r⟩
  rw [hic] at hic0
  simp only at hic0
  unfold cargoPhase at hx
  rw [hic] at hx
  cases r with
  | error er =>
    simp only at hx
    rcases hic0 x hx with h | h
    · exact Or.inl h
    · exact Or.inr (Or.inl h)
  | ok b =>
    cases b with
    | false =>
      simp only at hx
      rcases hic0 x hx with h | h
      · exact Or.inl h
      · exact Or.inr (Or.inl h)
    | true =>
      cases rust_dir with
      | none =>
        simp only at hx
        rcases hic0 x hx with h | h
        · exact Or.inl h
        · exact Or.inr (Or.inl h)
      | some d =>
        simp only at hx
        have hx' : x ∈ runsOf (e ++ (cargoModules env d (env.scandir d)).1) :=
          hx
        rw [runsOf, List.filterMap_append] at hx'
        rcases List.mem_append.mp hx' with hl | hl
        · rcases hic0 x hl with h | h
          · exact Or.inl h
          · exact Or.inr (Or.inl h)
        · rcases runsOf_cargoModules_shape env d (env.scandir d) x hl with
            h | h
          · exact Or.inr (Or.inr (Or.inl h))
          · exact Or.inr (Or.inr (Or.inr h))

theorem mainFlow_trace (env : Env) (args : Args) (hw : WellLabeled env) :
    (mainFlow env args).1 =
      (cmakePhase env args.cpp_dir).1 ++ (pipPhase env).1 ++
        (cargoPhase env args.rust_dir).1 := by
  have h1 := cmakePhase_ok env args.cpp_dir hw
  rcases hc : cmakePhase env args.cpp_dir with ⟨e1, r1⟩
  rw [hc] at h1
  simp only at h1
  subst h1
  have h2 := pipPhase_ok env hw
  rcases hp : pipPhase env with ⟨e2, r2⟩
  rw [hp] at h2
  simp only at h2
  subst h2
  simp [mainFlow, hc, hp]

theorem programRun_analyze_ready (env : Env) (args : Args)
    (hclean : args.clean = false)
    (hr : env.mgReady MG_HOST MG_PORT = true) :
    programRun env args =
      (.mgProbe MG_HOST MG_PORT ::
        .mgExecute MG_HOST MG_PORT "MATCH (n) DETACH DELETE n;" ::
        (mainFlow env args).1,
       (mainFlow env args).2) := by
  simp [programRun, hclean, is_memgraph_ready, hr,
    execQueries_ready env MG_HOST MG_PORT hr]

theorem programRun_clean (env : Env) (args : Args)
    (hclean : args.clean = true) :
    programRun env args =
      ([.chdir WORK_DIRECTORY, .shellRun "rm *.dot* *.png"], .ok ()) := by
  simp [programRun, hclean]

theorem startsWithChars_iff :
    ∀ p s : List Char, startsWithChars p s = true ↔ ∃ t, s = p ++ t := by
  intro p
  induction p with
  | nil =>
    intro s
    simp [startsWithChars]
  | cons a as ih =>
    intro s
    cases s with
    | nil =>
      simp [startsWithChars]
    | cons b bs =>
      by_cases hab : a = b
      · subst hab
        simp [startsWithChars, ih]
      · simp only [startsWithChars, if_neg hab, Bool.false_eq_true,
          false_iff]
        rintro ⟨t, ht⟩
        simp only [List.cons_append, List.cons.injEq] at ht
        exact hab ht.1.symm

theorem hasSubChars_iff :
    ∀ p s : List Char, hasSubChars p s = true ↔ ∃ u v, s = u ++ p ++ v := by
  intro p s
  induction s with
  | nil =>
    simp only [hasSubChars, startsWithChars_iff]
    constructor
    · rintro ⟨t, ht⟩
      exact ⟨[], t, ht⟩
    · rintro ⟨u, v, huv⟩
      refine ⟨v, ?_⟩
      rcases List.append_eq_nil.mp (List.append_eq_nil.mp huv.symm).1 with
        ⟨hu, hp⟩
      subst hu hp
      simpa using huv
  | cons b bs ih =>
    simp only [hasSubChars, Bool.or_eq_true, startsWithChars_iff, ih]
    constructor
    · rintro (⟨t, ht⟩ | ⟨u, v, huv⟩)
      · exact ⟨[], t, by simpa using ht⟩
      · exact ⟨b :: u, v, by simp [huv]⟩
    · rintro ⟨u, v, huv⟩
      cases u with
      | nil =>
        exact Or.inl ⟨v, by simpa using huv⟩
      | cons c u' =>
        simp only [List.cons_append, List.cons.injEq] at huv
        exact Or.inr ⟨u', v, huv.2⟩

theorem strEndsWith_containsSubstr (s p : String)
    (h : strEndsWith s p = true) : containsSubstr s p = true := by
  rw [strEndsWith, startsWithChars_iff] at h
  obtain ⟨t, ht⟩ := h
  rw [containsSubstr, hasSubChars_iff]
  refine ⟨t.reverse, [], ?_⟩
  have := congrArg List.reverse ht
  simp only [List.reverse_reverse, List.reverse_append] at this
  simp [this]

/-- C1: for every DOT input graph and every category label list, whenever
the loader dot_to_mg_graph produces a graph, the produced nodes
correspond one to one with the input nodes; each keeps its identifier and
its label, carries the category attribute "labels" equal to the given
list, and carries a display name "name" equal to its label attribute with
surrounding quote characters (single and double quotes) removed; the
edges are unchanged. -/
theorem c1_loader_sets_labels_and_name (g : DotGraph) (labels : List String)
    (g' : DotGraph) (h : dot_to_mg_graph g labels = .ok g') :
    List.Forall₂ (nodeAnnotated labels) g.nodes g'.nodes ∧
      g'.edges = g.edges := by
  unfold dot_to_mg_graph at h
  rcases hn : annotateNodes labels g.nodes with e | ns'
  · rw [hn] at h
    exact absurd h (by simp)
  · rw [hn] at h
    simp only [Except.ok.injEq] at h
    subst h
    exact ⟨annotateNodes_spec labels g.nodes ns' hn, rfl⟩

/-- Witness for C1: the loader applied to a concrete one-node graph whose
label carries surrounding double quotes. -/
theorem c1_witness :
    List.Forall₂ (nodeAnnotated ["Python"]) gInC1.nodes gOutC1.nodes ∧
      gOutC1.edges = gInC1.edges :=
  c1_loader_sets_labels_and_name gInC1 ["Python"] gOutC1 (by rfl)

/-- C3: in analyze mode, when the database is reachable at program start,
the program's first executed statement is the unconditional wipe
MATCH (n) DETACH DELETE n; placed before every event of the analyze flow
and hence before any insert of the current run; consequently the
database contents at the default endpoint after the run do not depend on
whatever statements populated it before the run. -/
theorem c3_delete_precedes_all_loads (env : Env) (args : Args)
    (hclean : args.clean = false)
    (hready : env.mgReady MG_HOST MG_PORT = true) :
    programRun env args =
      (.mgProbe MG_HOST MG_PORT ::
        .mgExecute MG_HOST MG_PORT "MATCH (n) DETACH DELETE n;" ::
        (mainFlow env args).1, (mainFlow env args).2) ∧
    ∀ init, dbStatements init (programRun env args).1 =
      dbStatements [] (mainFlow env args).1 := by
  have h := programRun_analyze_ready env args hclean hready
  refine ⟨h, fun init => ?_⟩
  rw [h]
  simp [dbStatements]

/-- Witness for C3 at a concrete reachable environment and argument
vector. -/
theorem c3_witness :
    programRun envReady ⟨false, none, none, none⟩ =
      (.mgProbe MG_HOST MG_PORT ::
        .mgExecute MG_HOST MG_PORT "MATCH (n) DETACH DELETE n;" ::
        (mainFlow envReady ⟨false, none, none, none⟩).1,
       (mainFlow envReady ⟨false, none, none, none⟩).2) ∧
    ∀ init, dbStatements init (programRun envReady ⟨false, none, none, none⟩).1 =
      dbStatements [] (mainFlow envReady ⟨false, none, none, none⟩).1 :=
  c3_delete_precedes_all_loads envReady ⟨false, none, none, none⟩ rfl rfl

/-- C4: for every DOT path and label list, if the readiness gate fails
then dot_to_memgraph returns right after logging a warning: its whole
trace is the call marker, the failed default-endpoint probe and the
warning — no retry, no queuing — and it executes zero database
statements. -/
theorem c4_skip_when_not_ready (env : Env) (path : String)
    (labels : List String) (host : String) (port : Nat)
    (h : env.mgReady "127.0.0.1" 7687 = false) :
    dot_to_memgraph env path labels host port =
      ([.load path labels, .mgProbe "127.0.0.1" 7687,
        .logWarning "Memgraph is not ready."], .ok ()) ∧
      execsOf (dot_to_memgraph env path labels host port).1 = [] := by
  refine ⟨dot_to_memgraph_not_ready env path labels host port h, ?_⟩
  rw [dot_to_memgraph_not_ready env path labels host port h]
  rfl

/-- Witness for C4 at a concrete unreachable environment. -/
theorem c4_witness :
    dot_to_memgraph envBase "/depsy/pydeps.dot" ["Python"] "127.0.0.1" 7687 =
      ([.load "/depsy/pydeps.dot" ["Python"], .mgProbe "127.0.0.1" 7687,
        .logWarning "Memgraph is not ready."], .ok ()) ∧
      execsOf (dot_to_memgraph envBase "/depsy/pydeps.dot" ["Python"]
        "127.0.0.1" 7687).1 = [] :=
  c4_skip_when_not_ready envBase "/depsy/pydeps.dot" ["Python"]
    "127.0.0.1" 7687 rfl

/-- C10: for every host and port passed to dot_to_memgraph, the readiness
gate probes the hard-coded default endpoint 127.0.0.1:7687 and ignores
the parameters; when the default endpoint is ready but the requested
endpoint is not, the load is not skipped and its first insert is
attempted against the requested endpoint, where it fails — so with
non-default parameters the skip decision disagrees with the reachability
of the database actually written to. -/
theorem c10_gate_probes_default_endpoint (env : Env) (path : String)
    (labels : List String) (host : String) (port : Nat) (g : DotGraph)
    (q : String) (qs : List String)
    (hdef : env.mgReady "127.0.0.1" 7687 = true)
    (htgt : env.mgReady host port = false)
    (hg : dot_to_mg_graph (env.readDot path) labels = .ok g)
    (hq : env.nxToCypher g = q :: qs) :
    probesOf (dot_to_memgraph env path labels host port).1 =
      [("127.0.0.1", 7687)] ∧
    dot_to_memgraph env path labels host port =
      ([.load path labels, .mgProbe "127.0.0.1" 7687,
        .mgExecute host port q], .error .connectionError) := by
  have hex : execQueries env host port (q :: qs) =
      ([.mgExecute host port q], .error .connectionError) := by
    simp [execQueries, htgt]
  have heq := dot_to_memgraph_ready_ok env path labels host port g hdef hg
  rw [hq, hex] at heq
  simp only at heq
  exact ⟨by rw [heq]; rfl, heq⟩

/-- Witness for C10: environment reachable only at the default endpoint,
load requested against 10.0.0.5:7688. -/
theorem c10_witness :
    probesOf (dot_to_memgraph envC10 "/depsy/cppdeps.dot" ["Cpp"]
      "10.0.0.5" 7688).1 = [("127.0.0.1", 7687)] ∧
    dot_to_memgraph envC10 "/depsy/cppdeps.dot" ["Cpp"] "10.0.0.5" 7688 =
      ([.load "/depsy/cppdeps.dot" ["Cpp"], .mgProbe "127.0.0.1" 7687,
        .mgExecute "10.0.0.5" 7688 "CREATE (n);"],
       .error .connectionError) :=
  c10_gate_probes_default_endpoint envC10 "/depsy/cppdeps.dot" ["Cpp"]
    "10.0.0.5" 7688
    ⟨[⟨"n0", [("label", .str "n0"), ("labels", .list ["Cpp"]),
      ("name", .str "n0")]⟩], []⟩
    "CREATE (n);" [] rfl rfl rfl rfl

/-- Counterexample to C2: a probe-command failure that a checker does not
map to False.  With the cmake binary present but cmake --version exiting
with status 1, is_cmake_ready still returns True; and with
cargo --version succeeding but cargo install --list exiting with status
1, is_cargo_ready raises CalledProcessError instead of returning
False. -/
theorem c2_counterexample :
    envCmakeBadExit.cmakeVersionExit = 1 ∧
    (is_cmake_ready envCmakeBadExit).2 = .ok true ∧
    envCargoListBad.cargoListExit = 1 ∧
    (is_cargo_ready envCargoListBad).2 = .error .calledProcessError :=
  ⟨rfl, rfl, rfl, rfl⟩

/-- C2 amended: is_memgraph_ready and is_cmake_ready never raise.
is_memgraph_ready returns exactly the reachability of the probed
endpoint, so any connection or query failure yields False.
is_cmake_ready returns False exactly when the cmake binary cannot be
invoked — in particular it returns True even when the probe runs and
exits non-zero.  is_cargo_ready returns False when cargo cannot be
invoked, when its version probe exits non-zero, or when a successful
plugin listing lacks cargo-deps; but when the listing command itself
exits non-zero it raises CalledProcessError. -/
theorem c2_amended_readiness_behavior (env : Env) :
    (∀ host port, (is_memgraph_ready env host port).2 =
      .ok (env.mgReady host port)) ∧
    (is_cmake_ready env).2 = .ok env.cmakeInvocable ∧
    (is_cargo_ready env).2 =
      (if env.cargoInvocable = true ∧ env.cargoVersionExit = 0 then
        (if env.cargoListExit = 0 then
          .ok (containsSubstr env.cargoListStdout "cargo-deps")
         else .error .calledProcessError)
       else .ok false) := by
  refine ⟨fun host port => rfl, ?_, is_cargo_ready_result env⟩
  cases h : env.cmakeInvocable <;> simp [is_cmake_ready, h]

/-- Counterexample to C8: cargo is invocable and the text cargo-deps
does appear in the captured output of cargo install --list, yet
is_cargo_ready does not return True — the listing command exited
non-zero, so the function raises CalledProcessError. -/
theorem c8_counterexample :
    envCargoListBad.cargoInvocable = true ∧
    containsSubstr envCargoListBad.cargoListStdout "cargo-deps" = true ∧
    (is_cargo_ready envCargoListBad).2 = .error .calledProcessError :=
  ⟨rfl, rfl, rfl⟩

/-- C8 amended: is_cargo_ready returns True if and only if the cargo
binary is invocable, its version probe exits 0, the installed-plugin
listing command exits 0, and cargo-deps appears in the captured listing
output; a successful listing without cargo-deps yields False, and a
listing that exits non-zero makes the function raise instead of
returning. -/
theorem c8_amended_cargo_ready_iff (env : Env) :
    (is_cargo_ready env).2 = .ok true ↔
      (env.cargoInvocable = true ∧ env.cargoVersionExit = 0 ∧
       env.cargoListExit = 0 ∧
       containsSubstr env.cargoListStdout "cargo-deps" = true) := by
  rw [is_cargo_ready_result env]
  by_cases h1 : env.cargoInvocable = true ∧ env.cargoVersionExit = 0
  · by_cases h2 : env.cargoListExit = 0
    · simp only [h1, and_true, if_true, h2, if_pos, true_and]
      cases hc : containsSubstr env.cargoListStdout "cargo-deps" <;>
        simp [hc, h1.1, h1.2, h2]
    · rw [if_pos h1, if_neg h2]
      constructor
      · intro hcontr
        exact absurd hcontr (by simp)
      · rintro ⟨_, _, hl, _⟩
        exact absurd hl h2
  · rw [if_neg h1]
    constructor
    · intro hcontr
      exact absurd hcontr (by simp)
    · rintro ⟨ha, hb, _, _⟩
      exact absurd ⟨ha, hb⟩ h1

/-- C9: the program's behaviour does not depend on --python-dir: two
argument vectors that agree on clean, cpp_dir and rust_dir make the
program produce identical traces and results whatever their python_dir
values (supplied, absent, or different) — the flag is parsed into Args
but never read by the orchestration. -/
theorem c9_python_dir_irrelevant (env : Env) (clean : Bool)
    (cpp_dir rust_dir p1 p2 : Option String) :
    programRun env ⟨clean, cpp_dir, p1, rust_dir⟩ =
      programRun env ⟨clean, cpp_dir, p2, rust_dir⟩ := rfl

/-- Counterexample to C5: the claim that clean mode removes every file
with a .dot or .png extension from the working directory fails on hidden
files: a shell wildcard never matches a leading period, so the command
rm *.dot* *.png leaves the file .hidden.png — which has a .png
extension — in place, while clean mode runs exactly that command. -/
theorem c5_counterexample :
    hasDotOrPngExt ".hidden.png" = true ∧
    cleanShellEffect [".hidden.png"] = [".hidden.png"] ∧
    (programRun envBase ⟨true, none, none, none⟩).1 =
      [.chdir WORK_DIRECTORY, .shellRun "rm *.dot* *.png"] :=
  ⟨rfl, rfl, rfl⟩

/-- C5 amended: with --clean the program's only actions are changing to
the working directory and running the shell command rm *.dot* *.png — it
makes no database probe, executes no statement, calls no loader, spawns
no external command and writes no file, so clean mode and analyze mode
are mutually exclusive.  That shell command removes exactly the names
matching the glob patterns of the command line; in particular every
non-hidden file with a .dot or .png extension is removed (hidden ones
survive). -/
theorem c5_amended_clean_mode (env : Env) (args : Args)
    (files : List String) (hclean : args.clean = true) :
    programRun env args =
      ([.chdir WORK_DIRECTORY, .shellRun "rm *.dot* *.png"], .ok ()) ∧
    probesOf (programRun env args).1 = [] ∧
    execsOf (programRun env args).1 = [] ∧
    loadsOf (programRun env args).1 = [] ∧
    runsOf (programRun env args).1 = [] ∧
    writesOf (programRun env args).1 = [] ∧
    cleanShellEffect files =
      files.filter (fun n => !(matchesDotStarGlob n || matchesPngGlob n)) ∧
    (∀ n ∈ files, strStartsWith n "." = false → hasDotOrPngExt n = true →
      n ∉ cleanShellEffect files) := by
  have h := programRun_clean env args hclean
  refine ⟨h, by rw [h]; rfl, by rw [h]; rfl, by rw [h]; rfl, by rw [h]; rfl,
    by rw [h]; rfl, rfl, ?_⟩
  intro n hn hhid hext
  simp only [hasDotOrPngExt, Bool.or_eq_true] at hext
  have hmatch : (matchesDotStarGlob n || matchesPngGlob n) = true := by
    rcases hext with hd | hp
    · have hsub := strEndsWith_containsSubstr n ".dot" hd
      simp [matchesDotStarGlob, hhid, hsub]
    · simp [matchesPngGlob, hhid, hp]
  rw [cleanShellEffect]
  intro hmem
  rcases List.mem_filter.mp hmem with ⟨-, hkeep⟩
  rw [hmatch] at hkeep
  exact absurd hkeep (by simp)

/-- Witness for C5 amended at a concrete clean-mode invocation and a
concrete working-directory listing. -/
theorem c5_witness :
    programRun envBase ⟨true, some "/cpp", none, some "/rust"⟩ =
      ([.chdir WORK_DIRECTORY, .shellRun "rm *.dot* *.png"], .ok ()) ∧
    probesOf (programRun envBase ⟨true, some "/cpp", none, some "/rust"⟩).1 =
      [] ∧
    execsOf (programRun envBase ⟨true, some "/cpp", none, some "/rust"⟩).1 =
      [] ∧
    loadsOf (programRun envBase ⟨true, some "/cpp", none, some "/rust"⟩).1 =
      [] ∧
    runsOf (programRun envBase ⟨true, some "/cpp", none, some "/rust"⟩).1 =
      [] ∧
    writesOf (programRun envBase ⟨true, some "/cpp", none, some "/rust"⟩).1 =
      [] ∧
    cleanShellEffect ["a.dot", "b.png", ".hidden.png", "notes.txt"] =
      (["a.dot", "b.png", ".hidden.png", "notes.txt"]).filter
        (fun n => !(matchesDotStarGlob n || matchesPngGlob n)) ∧
    (∀ n ∈ ["a.dot", "b.png", ".hidden.png", "notes.txt"],
      strStartsWith n "." = false → hasDotOrPngExt n = true →
      n ∉ cleanShellEffect ["a.dot", "b.png", ".hidden.png", "notes.txt"]) :=
  c5_amended_clean_mode envBase ⟨true, some "/cpp", none, some "/rust"⟩
    ["a.dot", "b.png", ".hidden.png", "notes.txt"] rfl

theorem loadsOf_cmakePhase_active (env : Env) (d : String)
    (hc : env.cmakeInvocable = true) :
    loadsOf (cmakePhase env (some d)).1 =
      [(pathJoin WORK_DIRECTORY "cppdeps.dot", ["Cpp"])] := by
  have h2 := loadsOf_dot_to_memgraph env
    (pathJoin WORK_DIRECTORY "cppdeps.dot") ["Cpp"] "127.0.0.1" 7687
  simp only [loadsOf] at h2 ⊢
  simp [cmakePhase_active env d hc, generate_cmake_dot, dot_to_png,
    List.filterMap_append, h2]

theorem runsOf_cmakePhase_active (env : Env) (d : String)
    (hc : env.cmakeInvocable = true) :
    runsOf (cmakePhase env (some d)).1 =
      [["cmake", "--version"],
       ["cmake", "--graphviz=" ++ pathJoin WORK_DIRECTORY "cppdeps.dot", ".."],
       ["dot", "-Tpng", "-o", pathJoin WORK_DIRECTORY "cppdeps.png",
        pathJoin WORK_DIRECTORY "cppdeps.dot"]] := by
  have h2 := runsOf_dot_to_memgraph env
    (pathJoin WORK_DIRECTORY "cppdeps.dot") ["Cpp"] "127.0.0.1" 7687
  simp only [runsOf] at h2 ⊢
  simp [cmakePhase_active env d hc, generate_cmake_dot, dot_to_png,
    List.filterMap_append, h2]

theorem pngRendersOf_pipPhase (env : Env) :
    pngRendersOf (pipPhase env).1 = [pathJoin WORK_DIRECTORY "pydeps.png"] := by
  have h2 := pngRendersOf_dot_to_memgraph env
    (pathJoin WORK_DIRECTORY "pydeps.dot") ["Python"] "127.0.0.1" 7687
  simp only [pngRendersOf] at h2 ⊢
  simp [pipPhase, generate_pip_dot, dot_to_png, List.filterMap_append, h2]

/-- C6: in the analyze flow, the native-build steps — the cmake graphviz
generation command and the Cpp-tagged loader call — appear if and only
if the cmake readiness check succeeds and --cpp-dir was supplied,
whereas the language-package steps — the pipdeptree generation command,
the pydeps.png rendering, and the Python-tagged loader call on
pydeps.dot — appear on every analyze run whatever the arguments and
tool availability. -/
theorem c6_branch_conditions (env : Env) (args : Args)
    (hw : WellLabeled env) :
    ((pathJoin WORK_DIRECTORY "cppdeps.dot", ["Cpp"]) ∈
        loadsOf (mainFlow env args).1 ↔
      (env.cmakeInvocable = true ∧ args.cpp_dir ≠ none)) ∧
    (["cmake", "--graphviz=" ++ pathJoin WORK_DIRECTORY "cppdeps.dot", ".."]
        ∈ runsOf (mainFlow env args).1 ↔
      (env.cmakeInvocable = true ∧ args.cpp_dir ≠ none)) ∧
    (pathJoin WORK_DIRECTORY "pydeps.dot", ["Python"]) ∈
      loadsOf (mainFlow env args).1 ∧
    ["pipdeptree", "--graph-output", "dot"] ∈ runsOf (mainFlow env args).1 ∧
    pathJoin WORK_DIRECTORY "pydeps.png" ∈
      pngRendersOf (mainFlow env args).1 := by
  have htr := mainFlow_trace env args hw
  have hLsplit : loadsOf (mainFlow env args).1 =
      loadsOf (cmakePhase env args.cpp_dir).1 ++ loadsOf (pipPhase env).1 ++
        loadsOf (cargoPhase env args.rust_dir).1 := by
    rw [htr, loadsOf, List.filterMap_append, List.filterMap_append]
    rfl
  have hRsplit : runsOf (mainFlow env args).1 =
      runsOf (cmakePhase env args.cpp_dir).1 ++ runsOf (pipPhase env).1 ++
        runsOf (cargoPhase env args.rust_dir).1 := by
    rw [htr, runsOf, List.filterMap_append, List.filterMap_append]
    rfl
  have hPsplit : pngRendersOf (mainFlow env args).1 =
      pngRendersOf (cmakePhase env args.cpp_dir).1 ++
        pngRendersOf (pipPhase env).1 ++
        pngRendersOf (cargoPhase env args.rust_dir).1 := by
    rw [htr, pngRendersOf, List.filterMap_append, List.filterMap_append]
    rfl
  have hcargoL := loadsOf_cargoPhase_rust env args.rust_dir
  have hcargoR := runsOf_cargoPhase_shape env args.rust_dir
  have hnotL : (pathJoin WORK_DIRECTORY "cppdeps.dot", ["Cpp"]) ∉
      loadsOf (pipPhase env).1 ++ loadsOf (cargoPhase env args.rust_dir).1 := by
    intro hmem
    rcases List.mem_append.mp hmem with hmem | hmem
    · rw [loadsOf_pipPhase env] at hmem
      simp at hmem
    · have := hcargoL _ hmem
      simp at this
  have hnotR : ["cmake", "--graphviz=" ++ pathJoin WORK_DIRECTORY
      "cppdeps.dot", ".."] ∉
      runsOf (pipPhase env).1 ++ runsOf (cargoPhase env args.rust_dir).1 := by
    intro hmem
    rcases List.mem_append.mp hmem with hmem | hmem
    · rw [runsOf_pipPhase env] at hmem
      exact absurd hmem (by decide)
    · rcases hcargoR _ hmem with h | h | h | ⟨a, b, h⟩
      · exact absurd h (by decide)
      · exact absurd h (by decide)
      · exact absurd h (by decide)
      · simp at h
  refine ⟨?_, ?_, ?_, ?_, ?_⟩
  · rw [hLsplit, List.append_assoc]
    constructor
    · intro hmem
      rcases List.mem_append.mp hmem with hmem | hmem
      · cases hc : env.cmakeInvocable with
        | false =>
          rw [cmakePhase_no_cmake env args.cpp_dir hc] at hmem
          simp [loadsOf] at hmem
        | true =>
          cases hd : args.cpp_dir with
          | none =>
            rw [hd, cmakePhase_no_dir env hc] at hmem
            simp [loadsOf] at hmem
          | some d => exact ⟨rfl, by simp⟩
      · exact absurd hmem hnotL
    · rintro ⟨hc, hd⟩
      rcases Option.ne_none_iff_exists.mp hd with ⟨d, hd'⟩
      rw [← hd']
      exact List.mem_append.mpr (Or.inl (by
        rw [loadsOf_cmakePhase_active env d hc]
        simp))
  · rw [hRsplit, List.append_assoc]
    constructor
    · intro hmem
      rcases List.mem_append.mp hmem with hmem | hmem
      · cases hc : env.cmakeInvocable with
        | false =>
          rw [cmakePhase_no_cmake env args.cpp_dir hc] at hmem
          simp [runsOf] at hmem
        | true =>
          cases hd : args.cpp_dir with
          | none =>
            rw [hd, cmakePhase_no_dir env hc] at hmem
            simp only [runsOf, List.filterMap_cons, List.filterMap_nil] at hmem
            exact absurd hmem (by decide)
          | some d => exact ⟨rfl, by simp⟩
      · exact absurd hmem hnotR
    · rintro ⟨hc, hd⟩
      rcases Option.ne_none_iff_exists.mp hd with ⟨d, hd'⟩
      rw [← hd']
      exact List.mem_append.mpr (Or.inl (by
        rw [runsOf_cmakePhase_active env d hc]
        simp))
  · rw [hLsplit]
    refine List.mem_append.mpr (Or.inl (List.mem_append.mpr (Or.inr ?_)))
    rw [loadsOf_pipPhase env]
    simp
  · rw [hRsplit]
    refine List.mem_append.mpr (Or.inl (List.mem_append.mpr (Or.inr ?_)))
    rw [runsOf_pipPhase env]
    simp
  · rw [hPsplit]
    refine List.mem_append.mpr (Or.inl (List.mem_append.mpr (Or.inr ?_)))
    rw [pngRendersOf_pipPhase env]
    simp

/-- Witness for C6 at a concrete environment with cmake available and a
concrete argument vector supplying --cpp-dir only. -/
theorem c6_witness :
    ((pathJoin WORK_DIRECTORY "cppdeps.dot", ["Cpp"]) ∈
        loadsOf (mainFlow envC6 ⟨false, some "/cpp", none, none⟩).1 ↔
      (envC6.cmakeInvocable = true ∧
        (some "/cpp" : Option String) ≠ none)) ∧
    (["cmake", "--graphviz=" ++ pathJoin WORK_DIRECTORY "cppdeps.dot", ".."]
        ∈ runsOf (mainFlow envC6 ⟨false, some "/cpp", none, none⟩).1 ↔
      (envC6.cmakeInvocable = true ∧
        (some "/cpp" : Option String) ≠ none)) ∧
    (pathJoin WORK_DIRECTORY "pydeps.dot", ["Python"]) ∈
      loadsOf (mainFlow envC6 ⟨false, some "/cpp", none, none⟩).1 ∧
    ["pipdeptree", "--graph-output", "dot"] ∈
      runsOf (mainFlow envC6 ⟨false, some "/cpp", none, none⟩).1 ∧
    pathJoin WORK_DIRECTORY "pydeps.png" ∈
      pngRendersOf (mainFlow envC6 ⟨false, some "/cpp", none, none⟩).1 :=
  c6_branch_conditions envC6 ⟨false, some "/cpp", none, none⟩ (by
    intro path n hn
    simp [envC6, envBase] at hn
    subst hn
    exact ⟨"n0", rfl⟩)

/-- C7: when the cargo readiness check succeeds and --rust-dir is
supplied, the cargo branch writes one DOT file, renders one PNG and
makes one Rust-tagged loader call, each named per subdirectory, for
exactly those scandir entries of the rust directory that are directories
containing a Cargo.toml manifest, in scandir order, and for no other
entry. -/
theorem c7_cargo_modules_exact (env : Env) (d : String)
    (hw : WellLabeled env)
    (h1 : env.cargoInvocable = true) (h2 : env.cargoVersionExit = 0)
    (h3 : env.cargoListExit = 0)
    (h4 : containsSubstr env.cargoListStdout "cargo-deps" = true) :
    writesOf (cargoPhase env (some d)).1 =
      ((env.scandir d).filter (isCargoModule env d)).map
        (fun e => pathJoin WORK_DIRECTORY ("rsdeps_" ++ e.name ++ ".dot")) ∧
    pngRendersOf (cargoPhase env (some d)).1 =
      ((env.scandir d).filter (isCargoModule env d)).map
        (fun e => pathJoin WORK_DIRECTORY ("rsdeps_" ++ e.name ++ ".png")) ∧
    loadsOf (cargoPhase env (some d)).1 =
      ((env.scandir d).filter (isCargoModule env d)).map
        (fun e => (pathJoin WORK_DIRECTORY ("rsdeps_" ++ e.name ++ ".dot"),
          ["Rust"])) := by
  have hic := is_cargo_ready_true env h1 h2 h3 h4
  have hcp : cargoPhase env (some d) =
      ([.runCmd ["cargo", "--version"],
        .runCmd ["cargo", "install", "--list"]] ++
        (cargoModules env d (env.scandir d)).1,
       (cargoModules env d (env.scandir d)).2) := by
    simp [cargoPhase, hic]
  rw [hcp]
  have hW := writesOf_cargoModules env d hw (env.scandir d)
  have hP := pngRendersOf_cargoModules env d hw (env.scandir d)
  have hL := loadsOf_cargoModules env d hw (env.scandir d)
  simp only [writesOf, pngRendersOf, loadsOf] at hW hP hL ⊢
  simp [List.filterMap_append, hW, hP, hL]

/-- Witness for C7: a rust directory with two subdirectories, alpha and
beta, of which only alpha holds a Cargo.toml: artifacts are produced for
exactly the one module alpha. -/
theorem c7_witness :
    writesOf (cargoPhase envC7 (some "/rust")).1 =
      ["/depsy/rsdeps_alpha.dot"] ∧
    pngRendersOf (cargoPhase envC7 (some "/rust")).1 =
      ["/depsy/rsdeps_alpha.png"] ∧
    loadsOf (cargoPhase envC7 (some "/rust")).1 =
      [("/depsy/rsdeps_alpha.dot", ["Rust"])] :=
  c7_cargo_modules_exact envC7 "/rust" (by
      intro path n hn
      simp [envC7, envBase] at hn)
    rfl rfl rfl rfl
